import Mathlib

/-!
Shallow embedding of the LC-3 emulator's instruction-execution engine
(`src/emulation/instruction/mod.rs`) of the RustASM-16 repository.

Conventions.
* Rust `u16` values are modelled as `Nat`; every point where the source
  truncates a wider value to `u16` (an `as u16` cast of a `u32` sum) is an
  explicit `% 65536`.
* A plain Rust `+` / `+=` on `u16`, and a `<<` whose shift amount reaches the
  bit width, are arithmetic overflows: the program aborts there under the
  default (debug) build profile.  Such operations are modelled as fallible
  (`Option`, or an explicit abort case in a result type); the handlers that the
  source writes with widened `u32` arithmetic are total.
* The register file and the VM memory live in modules of the repository that
  are not part of the given sources; they are modelled from the spec (§4.2,
  §4.3) and marked as such.
* Console I/O is modelled by an input byte list and an output event list;
  `process::exit` and panics are explicit result constructors.
-/

namespace RustASM16

/-- Condition-flag value P (positive), `0b001` (spec §3). -/
def FL_POS : Nat := 1

/-- Condition-flag value Z (zero), `0b010` (spec §3). -/
def FL_ZRO : Nat := 2

/-- Condition-flag value N (negative), `0b100` (spec §3). -/
def FL_NEG : Nat := 4

/-- The sign flag of a 16-bit value: Z if it is zero, N if bit 15 is set,
P otherwise (spec §4.2 `set_cc`). -/
def flag_of (v : Nat) : Nat :=
  if v = 0 then FL_ZRO
  else if (v >>> 15) &&& 1 = 1 then FL_NEG
  else FL_POS

/-- The register file: eight general registers, the program counter and the
condition-code register (spec §3).  The component itself is not among the
given sources; its shape is taken from the field accesses
`vm.registers.r0`, `vm.registers.r7`, `vm.registers.pc`,
`vm.registers.cond` in `instruction/mod.rs` and from spec §4.2. -/
structure Registers where
  r0 : Nat
  r1 : Nat
  r2 : Nat
  r3 : Nat
  r4 : Nat
  r5 : Nat
  r6 : Nat
  r7 : Nat
  pc : Nat
  cond : Nat

/-- Modelled from the spec: the register file's `get(i)` for `i ∈ 0..7`
(spec §4.2); the source module holding it is not under the given sources. -/
def Registers.get (regs : Registers) (i : Nat) : Nat :=
  if i = 0 then regs.r0
  else if i = 1 then regs.r1
  else if i = 2 then regs.r2
  else if i = 3 then regs.r3
  else if i = 4 then regs.r4
  else if i = 5 then regs.r5
  else if i = 6 then regs.r6
  else if i = 7 then regs.r7
  else 0

/-- Modelled from the spec: the register file's `set(i, v)` (spec §4.2,
called `update` by the callers in `instruction/mod.rs`). -/
def Registers.update (regs : Registers) (i v : Nat) : Registers :=
  if i = 0 then { regs with r0 := v }
  else if i = 1 then { regs with r1 := v }
  else if i = 2 then { regs with r2 := v }
  else if i = 3 then { regs with r3 := v }
  else if i = 4 then { regs with r4 := v }
  else if i = 5 then { regs with r5 := v }
  else if i = 6 then { regs with r6 := v }
  else if i = 7 then { regs with r7 := v }
  else regs

/-- Modelled from the spec: `set_cc(i)` — update COND from the sign of
register `i` (spec §4.2); called `update_r_cond_register` by the callers
in `instruction/mod.rs`. -/
def Registers.update_r_cond_register (regs : Registers) (r : Nat) : Registers :=
  { regs with cond := flag_of (regs.get r) }

/-- The VM: register file plus the 65,536-word memory (spec §3).  Memory is a
function from addresses to words; callers only pass 16-bit addresses. -/
structure VM where
  registers : Registers
  memory : Nat → Nat

/-- Modelled from the spec: `read(addr)` returns `memory[addr]` (spec §4.3).
Spec §9 records that the given source does not implement the KBSR/KBDR
polling, so a plain array read is the faithful model. -/
def VM.read_memory (vm : VM) (addr : Nat) : Nat :=
  vm.memory addr

/-- Modelled from the spec: `write(addr, v)`: `memory[addr] ← v` (spec §4.3). -/
def VM.write_memory (vm : VM) (addr v : Nat) : VM :=
  { vm with memory := fun a => if a = addr then v else vm.memory a }

/-- `sign_extend(x, bit_count)` from `instruction/mod.rs`:
`if (x >> (bit_count - 1)) & 1 != 0 { x |= 0xFFFF << bit_count; } x`.
`x` is a `u16`, `bit_count` a `u8`.  `none` models an abort:
for `bit_count = 0` the `u8` subtraction `bit_count - 1` overflows, and for
`bit_count ≥ 16` (when the branch is taken) the `u16` shift
`0xFFFF << bit_count` overflows; for `1 ≤ bit_count ≤ 15` the shifted mask is
the `u16` value `(0xFFFF <<< bit_count) % 65536`. -/
def sign_extend (x : Nat) (bit_count : Nat) : Option Nat :=
  if bit_count = 0 then none
  else if (x >>> (bit_count - 1)) &&& 1 ≠ 0 then
    if 16 ≤ bit_count then none
    else some (x ||| ((0xFFFF <<< bit_count) % 65536))
  else some x

/-- Total wrapper for `sign_extend` used by the instruction handlers: every
call site in the source passes a constant width in `{5, 6, 9, 11}`, for which
`sign_extend` never aborts, so the default value is never read. -/
def sxt (x : Nat) (bit_count : Nat) : Nat :=
  (sign_extend x bit_count).getD 0

/-- `enum OpCode` from `instruction/mod.rs`. -/
inductive OpCode where
  | BR | ADD | LD | ST | JSR | AND | LDR | STR
  | RTI | NOT | LDI | STI | JMP | RES | LEA | TRAP

/-- `get_op_code`: decode the top nibble of the instruction word. -/
def get_op_code (instruction : Nat) : Option OpCode :=
  if instruction >>> 12 = 0 then some .BR
  else if instruction >>> 12 = 1 then some .ADD
  else if instruction >>> 12 = 2 then some .LD
  else if instruction >>> 12 = 3 then some .ST
  else if instruction >>> 12 = 4 then some .JSR
  else if instruction >>> 12 = 5 then some .AND
  else if instruction >>> 12 = 6 then some .LDR
  else if instruction >>> 12 = 7 then some .STR
  else if instruction >>> 12 = 8 then some .RTI
  else if instruction >>> 12 = 9 then some .NOT
  else if instruction >>> 12 = 10 then some .LDI
  else if instruction >>> 12 = 11 then some .STI
  else if instruction >>> 12 = 12 then some .JMP
  else if instruction >>> 12 = 13 then some .RES
  else if instruction >>> 12 = 14 then some .LEA
  else if instruction >>> 12 = 15 then some .TRAP
  else none

/-- `add`: the sums are computed in `u32` and cast back to `u16`
(`% 65536`). -/
def add (instruction : Nat) (vm : VM) : VM :=
  let dr := (instruction >>> 9) &&& 0x7
  let sr1 := (instruction >>> 6) &&& 0x7
  let imm_flag := (instruction >>> 5) &&& 0x1
  let vm' :=
    if imm_flag = 1 then
      let imm5 := sxt (instruction &&& 0x1F) 5
      let val := (imm5 + vm.registers.get sr1) % 65536
      { vm with registers := vm.registers.update dr val }
    else
      let sr2 := instruction &&& 0x7
      let val := (vm.registers.get sr1 + vm.registers.get sr2) % 65536
      { vm with registers := vm.registers.update dr val }
  { vm' with registers := vm'.registers.update_r_cond_register dr }

/-- `ldi`: the first address is `vm.registers.pc + pc_offset`, a plain `u16`
addition in the source (not widened like every other handler); `none` models
the abort when that sum overflows 16 bits. -/
def ldi (instruction : Nat) (vm : VM) : Option VM :=
  let dr := (instruction >>> 9) &&& 0x7
  let pc_offset := sxt (instruction &&& 0x1ff) 9
  if 65536 ≤ vm.registers.pc + pc_offset then none
  else
    let first_read := vm.read_memory (vm.registers.pc + pc_offset)
    let resulting_address := vm.read_memory first_read
    let vm' := { vm with registers := vm.registers.update dr resulting_address }
    some { vm' with registers := vm'.registers.update_r_cond_register dr }

/-- `and`: bitwise AND of `u16` values needs no truncation. -/
def and (instruction : Nat) (vm : VM) : VM :=
  let dr := (instruction >>> 9) &&& 0x7
  let sr1 := (instruction >>> 6) &&& 0x7
  let imm_flag := (instruction >>> 5) &&& 0x1
  let vm' :=
    if imm_flag = 1 then
      let imm5 := sxt (instruction &&& 0x1F) 5
      { vm with registers := vm.registers.update dr (vm.registers.get sr1 &&& imm5) }
    else
      let sr2 := instruction &&& 0x7
      { vm with registers :=
          vm.registers.update dr (vm.registers.get sr1 &&& vm.registers.get sr2) }
  { vm' with registers := vm'.registers.update_r_cond_register dr }

/-- `not`: `u16` bitwise complement is XOR with `0xFFFF`. -/
def not (instruction : Nat) (vm : VM) : VM :=
  let dr := (instruction >>> 9) &&& 0x7
  let sr1 := (instruction >>> 6) &&& 0x7
  let vm' := { vm with registers := vm.registers.update dr (vm.registers.get sr1 ^^^ 0xFFFF) }
  { vm' with registers := vm'.registers.update_r_cond_register dr }

/-- `br`: the branch target sum is computed in `u32` and cast to `u16`. -/
def br (instruction : Nat) (vm : VM) : VM :=
  let pc_offset := sxt (instruction &&& 0x1ff) 9
  let cond_flag := (instruction >>> 9) &&& 0x7
  if cond_flag &&& vm.registers.cond ≠ 0 then
    { vm with registers := { vm.registers with pc := (vm.registers.pc + pc_offset) % 65536 } }
  else vm

/-- `jmp`. -/
def jmp (instruction : Nat) (vm : VM) : VM :=
  let base_reg := (instruction >>> 6) &&& 0x7
  { vm with registers := { vm.registers with pc := vm.registers.get base_reg } }

/-- `jsr`: the source assigns `vm.registers.r7 = vm.registers.pc` first, and
only then updates PC — in the register branch it reads `get(base_reg)` from
the register file whose R7 has already been overwritten. -/
def jsr (instruction : Nat) (vm : VM) : VM :=
  let base_reg := (instruction >>> 6) &&& 0x7
  let long_pc_offset := sxt (instruction &&& 0x7ff) 11
  let long_flag := (instruction >>> 11) &&& 1
  let regs1 := { vm.registers with r7 := vm.registers.pc }
  if long_flag ≠ 0 then
    { vm with registers := { regs1 with pc := (regs1.pc + long_pc_offset) % 65536 } }
  else
    { vm with registers := { regs1 with pc := regs1.get base_reg } }

/-- `ld`: address sum widened to `u32`, cast to `u16`. -/
def ld (instruction : Nat) (vm : VM) : VM :=
  let dr := (instruction >>> 9) &&& 0x7
  let pc_offset := sxt (instruction &&& 0x1ff) 9
  let mem := (pc_offset + vm.registers.pc) % 65536
  let value := vm.read_memory mem
  let vm' := { vm with registers := vm.registers.update dr value }
  { vm' with registers := vm'.registers.update_r_cond_register dr }

/-- `ldr`. -/
def ldr (instruction : Nat) (vm : VM) : VM :=
  let dr := (instruction >>> 9) &&& 0x7
  let base_reg := (instruction >>> 6) &&& 0x7
  let offset := sxt (instruction &&& 0x3F) 6
  let val := (vm.registers.get base_reg + offset) % 65536
  let mem_value := vm.read_memory val
  let vm' := { vm with registers := vm.registers.update dr mem_value }
  { vm' with registers := vm'.registers.update_r_cond_register dr }

/-- `lea`. -/
def lea (instruction : Nat) (vm : VM) : VM :=
  let dr := (instruction >>> 9) &&& 0x7
  let pc_offset := sxt (instruction &&& 0x1ff) 9
  let val := (vm.registers.pc + pc_offset) % 65536
  let vm' := { vm with registers := vm.registers.update dr val }
  { vm' with registers := vm'.registers.update_r_cond_register dr }

/-- `st`. -/
def st (instruction : Nat) (vm : VM) : VM :=
  let sr := (instruction >>> 9) &&& 0x7
  let pc_offset := sxt (instruction &&& 0x1ff) 9
  let val := (vm.registers.pc + pc_offset) % 65536
  vm.write_memory val (vm.registers.get sr)

/-- `sti`. -/
def sti (instruction : Nat) (vm : VM) : VM :=
  let sr := (instruction >>> 9) &&& 0x7
  let pc_offset := sxt (instruction &&& 0x1ff) 9
  let val := (vm.registers.pc + pc_offset) % 65536
  let address := vm.read_memory val
  vm.write_memory address (vm.registers.get sr)

/-- `str` (the source names the stored register's field `dr`). -/
def str (instruction : Nat) (vm : VM) : VM :=
  let dr := (instruction >>> 9) &&& 0x7
  let base_reg := (instruction >>> 6) &&& 0x7
  let offset := sxt (instruction &&& 0x3F) 6
  let val := (vm.registers.get base_reg + offset) % 65536
  vm.write_memory val (vm.registers.get dr)

/-- One console output action: a single byte (`print!` of one `char` cast
from a byte), a literal string, or a flush of the output stream. -/
inductive OutEvent where
  | ch (c : Nat)
  | out (s : String)
  | flush

/-- Result of a trap routine: return to the dispatcher, `process::exit`,
or an abort (a `panic`/`unwrap` failure or an arithmetic overflow). -/
inductive TrapResult where
  | ret (vm : VM) (output : List OutEvent) (input : List Nat)
  | exit (code : Nat) (output : List OutEvent)
  | panic (output : List OutEvent)

/-- The PUTS loop (trap `0x22`): starting at `index`, emit the low byte of
each word until a zero word.  The flag is `true` when the loop exited on a
zero word and `false` when it aborted: `index += 1` is a plain `u16`
increment, so at `index = 0xFFFF` the loop prints the byte and then the
increment overflows.  The fuel argument is structural bookkeeping only;
`65536` fuel is enough for every 16-bit start index. -/
def puts_loop (mem : Nat → Nat) : Nat → Nat → List Nat × Bool
  | 0, _ => ([], false)
  | fuel + 1, index =>
    if mem index = 0 then ([], true)
    else if index = 0xFFFF then ([mem index &&& 0xFF], false)
    else
      let rest := puts_loop mem fuel (index + 1)
      ((mem index &&& 0xFF) :: rest.1, rest.2)

/-- The PUTSP loop (trap `0x24`): per word, emit the low byte, then the high
byte unless it is zero; the same non-wrapping `index += 1` as `puts_loop`. -/
def putsp_loop (mem : Nat → Nat) : Nat → Nat → List Nat × Bool
  | 0, _ => ([], false)
  | fuel + 1, index =>
    if mem index = 0 then ([], true)
    else
      let c1 := mem index &&& 0xFF
      let c2 := (mem index >>> 8) &&& 0xFF
      let emitted := if c2 ≠ 0 then [c1, c2] else [c1]
      if index = 0xFFFF then (emitted, false)
      else
        let rest := putsp_loop mem fuel (index + 1)
        (emitted ++ rest.1, rest.2)

/-- `trap`: dispatch on the low 8 bits of the instruction.
`0x20` GETC reads one byte (`read_exact(..).unwrap()` aborts at end of
input); `0x21` OUT prints the low byte of R0; `0x22` PUTS and `0x24` PUTSP
run their loops and flush; `0x23` IN prompts, flushes and reads one byte
(`unwrap` aborts at end of input); `0x25` HALT prints `HALT detected`
(with `println!`'s newline), flushes and exits with status 1; every other
vector exits with status 1. -/
def trap (instruction : Nat) (vm : VM) (input : List Nat) : TrapResult :=
  let vect := instruction &&& 0xFF
  if vect = 0x20 then
    match input with
    | [] => .panic []
    | b :: rest => .ret { vm with registers := { vm.registers with r0 := b } } [] rest
  else if vect = 0x21 then
    .ret vm [.ch (vm.registers.r0 &&& 0xFF)] input
  else if vect = 0x22 then
    let pr := puts_loop vm.memory 65536 vm.registers.r0
    if pr.2 then .ret vm (pr.1.map .ch ++ [.flush]) input
    else .panic (pr.1.map .ch)
  else if vect = 0x23 then
    match input with
    | [] => .panic [.out "Enter a  character : ", .flush]
    | b :: rest =>
      .ret { vm with registers := vm.registers.update 0 b }
        [.out "Enter a  character : ", .flush] rest
  else if vect = 0x24 then
    let pr := putsp_loop vm.memory 65536 vm.registers.r0
    if pr.2 then .ret vm (pr.1.map .ch ++ [.flush]) input
    else .panic (pr.1.map .ch)
  else if vect = 0x25 then
    .exit 1 [.out "HALT detected\n", .flush]
  else
    .exit 1 []

/-- Result of one call to `execute_instruction`: a normal return with the new
VM, the console output produced and the input remaining, a `process::exit`,
or an abort. -/
inductive ExecResult where
  | ok (vm : VM) (output : List OutEvent) (input : List Nat)
  | exit (code : Nat) (output : List OutEvent)
  | panic (output : List OutEvent)

/-- Embed a trap routine's outcome into the dispatcher's result. -/
def liftTrap : TrapResult → ExecResult
  | .ret vm output input => .ok vm output input
  | .exit c output => .exit c output
  | .panic output => .panic output

/-- `execute_instruction`: decode and dispatch; the wildcard arm (RTI, RES,
and out-of-range opcodes) does nothing, as in the source. -/
def execute_instruction (instr : Nat) (vm : VM) (input : List Nat) : ExecResult :=
  match get_op_code instr with
  | some .ADD => .ok (add instr vm) [] input
  | some .AND => .ok (and instr vm) [] input
  | some .NOT => .ok (not instr vm) [] input
  | some .BR => .ok (br instr vm) [] input
  | some .JMP => .ok (jmp instr vm) [] input
  | some .JSR => .ok (jsr instr vm) [] input
  | some .LD => .ok (ld instr vm) [] input
  | some .LDI =>
    match ldi instr vm with
    | some vm' => .ok vm' [] input
    | none => .panic []
  | some .LDR => .ok (ldr instr vm) [] input
  | some .LEA => .ok (lea instr vm) [] input
  | some .ST => .ok (st instr vm) [] input
  | some .STI => .ok (sti instr vm) [] input
  | some .STR => .ok (str instr vm) [] input
  | some .TRAP => liftTrap (trap instr vm input)
  | _ => .ok vm [] input

/-- The scenario start state of spec §8: all registers zero, PC `0x3000`,
COND = Z, memory zeroed. -/
def regs0 : Registers :=
  { r0 := 0, r1 := 0, r2 := 0, r3 := 0, r4 := 0, r5 := 0, r6 := 0, r7 := 0,
    pc := 0x3000, cond := 2 }

/-- Zeroed VM with PC `0x3000`. -/
def vm0 : VM := { registers := regs0, memory := fun _ => 0 }

/-- A state with a distinguished return address in R7, used to exercise
`JSRR R7`. -/
def vmJ : VM := { registers := { regs0 with r7 := 0x1234 }, memory := fun _ => 0 }

/-- A state with PC at the top of the address space, used to exercise the
LDI address computation at the wrap boundary. -/
def vmFF : VM := { registers := { regs0 with pc := 0xFFFF }, memory := fun _ => 0 }

/-- A memory whose only zero word sits at address 0. -/
def memCE : Nat → Nat := fun a => if a = 0 then 0 else 1

/-- A state whose R0 points just above the only zero word of `memCE`: the
zero word is reachable from R0 only by wrapping past `0xFFFF`. -/
def vmCE : VM := { registers := { regs0 with r0 := 1 }, memory := memCE }

/-! ### Register-file lemmas -/

theorem Registers.cond_update (regs : Registers) (i v : Nat) :
    (regs.update i v).cond = regs.cond := by
  unfold Registers.update
  repeat' split
  all_goals rfl

theorem Registers.pc_update (regs : Registers) (i v : Nat) :
    (regs.update i v).pc = regs.pc := by
  unfold Registers.update
  repeat' split
  all_goals rfl

theorem Registers.get_update_self (regs : Registers) (i v : Nat) (h : i < 8) :
    (regs.update i v).get i = v := by
  interval_cases i <;> rfl

theorem Registers.cond_urc (regs : Registers) (i : Nat) :
    (regs.update_r_cond_register i).cond = flag_of (regs.get i) := rfl

theorem Registers.pc_urc (regs : Registers) (i : Nat) :
    (regs.update_r_cond_register i).pc = regs.pc := rfl

theorem Registers.get_urc (regs : Registers) (i j : Nat) :
    (regs.update_r_cond_register i).get j = regs.get j := by
  unfold Registers.get Registers.update_r_cond_register
  repeat' split
  all_goals rfl

theorem and_seven_lt_eight (n : Nat) : n &&& 7 < 8 :=
  Nat.lt_succ_of_le Nat.and_le_right

/-! ### Dispatch lemmas: `execute_instruction` by opcode nibble -/

theorem exec_br {instr : Nat} (vm : VM) (input : List Nat) (h : instr >>> 12 = 0) :
    execute_instruction instr vm input = .ok (br instr vm) [] input := by
  simp [execute_instruction, get_op_code, h]

theorem exec_add {instr : Nat} (vm : VM) (input : List Nat) (h : instr >>> 12 = 1) :
    execute_instruction instr vm input = .ok (add instr vm) [] input := by
  simp [execute_instruction, get_op_code, h]

theorem exec_ld {instr : Nat} (vm : VM) (input : List Nat) (h : instr >>> 12 = 2) :
    execute_instruction instr vm input = .ok (ld instr vm) [] input := by
  simp [execute_instruction, get_op_code, h]

theorem exec_st {instr : Nat} (vm : VM) (input : List Nat) (h : instr >>> 12 = 3) :
    execute_instruction instr vm input = .ok (st instr vm) [] input := by
  simp [execute_instruction, get_op_code, h]

theorem exec_jsr {instr : Nat} (vm : VM) (input : List Nat) (h : instr >>> 12 = 4) :
    execute_instruction instr vm input = .ok (jsr instr vm) [] input := by
  simp [execute_instruction, get_op_code, h]

theorem exec_and {instr : Nat} (vm : VM) (input : List Nat) (h : instr >>> 12 = 5) :
    execute_instruction instr vm input = .ok (and instr vm) [] input := by
  simp [execute_instruction, get_op_code, h]

theorem exec_ldr {instr : Nat} (vm : VM) (input : List Nat) (h : instr >>> 12 = 6) :
    execute_instruction instr vm input = .ok (ldr instr vm) [] input := by
  simp [execute_instruction, get_op_code, h]

theorem exec_str {instr : Nat} (vm : VM) (input : List Nat) (h : instr >>> 12 = 7) :
    execute_instruction instr vm input = .ok (str instr vm) [] input := by
  simp [execute_instruction, get_op_code, h]

theorem exec_rti {instr : Nat} (vm : VM) (input : List Nat) (h : instr >>> 12 = 8) :
    execute_instruction instr vm input = .ok vm [] input := by
  simp [execute_instruction, get_op_code, h]

theorem exec_not {instr : Nat} (vm : VM) (input : List Nat) (h : instr >>> 12 = 9) :
    execute_instruction instr vm input = .ok (not instr vm) [] input := by
  simp [execute_instruction, get_op_code, h]

theorem exec_ldi {instr : Nat} (vm : VM) (input : List Nat) (h : instr >>> 12 = 10) :
    execute_instruction instr vm input =
      (match ldi instr vm with
       | some vm' => .ok vm' [] input
       | none => .panic []) := by
  simp [execute_instruction, get_op_code, h]

theorem exec_sti {instr : Nat} (vm : VM) (input : List Nat) (h : instr >>> 12 = 11) :
    execute_instruction instr vm input = .ok (sti instr vm) [] input := by
  simp [execute_instruction, get_op_code, h]

theorem exec_jmp {instr : Nat} (vm : VM) (input : List Nat) (h : instr >>> 12 = 12) :
    execute_instruction instr vm input = .ok (jmp instr vm) [] input := by
  simp [execute_instruction, get_op_code, h]

theorem exec_res {instr : Nat} (vm : VM) (input : List Nat) (h : instr >>> 12 = 13) :
    execute_instruction instr vm input = .ok vm [] input := by
  simp [execute_instruction, get_op_code, h]

theorem exec_lea {instr : Nat} (vm : VM) (input : List Nat) (h : instr >>> 12 = 14) :
    execute_instruction instr vm input = .ok (lea instr vm) [] input := by
  simp [execute_instruction, get_op_code, h]

theorem exec_trap {instr : Nat} (vm : VM) (input : List Nat) (h : instr >>> 12 = 15) :
    execute_instruction instr vm input = liftTrap (trap instr vm input) := by
  simp [execute_instruction, get_op_code, h]

theorem exec_high {instr : Nat} (vm : VM) (input : List Nat) (h : 16 ≤ instr >>> 12) :
    execute_instruction instr vm input = .ok vm [] input := by
  have hop : get_op_code instr = none := by
    unfold get_op_code
    repeat rw [if_neg (by omega)]
  simp [execute_instruction, hop]

/-! ### Frame lemmas: which state components each handler leaves alone -/

theorem add_pc (instr : Nat) (vm : VM) :
    (add instr vm).registers.pc = vm.registers.pc := by
  unfold add
  dsimp only
  split <;> simp [Registers.pc_urc, Registers.pc_update]

theorem and_pc (instr : Nat) (vm : VM) :
    (and instr vm).registers.pc = vm.registers.pc := by
  unfold and
  dsimp only
  split <;> simp [Registers.pc_urc, Registers.pc_update]

theorem not_pc (instr : Nat) (vm : VM) :
    (not instr vm).registers.pc = vm.registers.pc := by
  simp [not, Registers.pc_urc, Registers.pc_update]

theorem ld_pc (instr : Nat) (vm : VM) :
    (ld instr vm).registers.pc = vm.registers.pc := by
  simp [ld, Registers.pc_urc, Registers.pc_update]

theorem ldr_pc (instr : Nat) (vm : VM) :
    (ldr instr vm).registers.pc = vm.registers.pc := by
  simp [ldr, Registers.pc_urc, Registers.pc_update]

theorem lea_pc (instr : Nat) (vm : VM) :
    (lea instr vm).registers.pc = vm.registers.pc := by
  simp [lea, Registers.pc_urc, Registers.pc_update]

theorem st_regs (instr : Nat) (vm : VM) :
    (st instr vm).registers = vm.registers := rfl

theorem sti_regs (instr : Nat) (vm : VM) :
    (sti instr vm).registers = vm.registers := rfl

theorem str_regs (instr : Nat) (vm : VM) :
    (str instr vm).registers = vm.registers := rfl

theorem ldi_pc {instr : Nat} {vm vm' : VM} (h : ldi instr vm = some vm') :
    vm'.registers.pc = vm.registers.pc := by
  unfold ldi at h
  dsimp only at h
  split at h
  · exact absurd h (by simp)
  · simp only [Option.some.injEq] at h
    subst h
    simp [Registers.pc_urc, Registers.pc_update]

theorem add_cond (instr : Nat) (vm : VM) :
    (add instr vm).registers.cond =
      flag_of ((add instr vm).registers.get ((instr >>> 9) &&& 0x7)) := by
  unfold add
  dsimp only
  split <;> simp [Registers.cond_urc, Registers.get_urc]

theorem and_cond (instr : Nat) (vm : VM) :
    (and instr vm).registers.cond =
      flag_of ((and instr vm).registers.get ((instr >>> 9) &&& 0x7)) := by
  unfold and
  dsimp only
  split <;> simp [Registers.cond_urc, Registers.get_urc]

theorem not_cond (instr : Nat) (vm : VM) :
    (not instr vm).registers.cond =
      flag_of ((not instr vm).registers.get ((instr >>> 9) &&& 0x7)) := by
  simp [not, Registers.cond_urc, Registers.get_urc]

theorem ld_cond (instr : Nat) (vm : VM) :
    (ld instr vm).registers.cond =
      flag_of ((ld instr vm).registers.get ((instr >>> 9) &&& 0x7)) := by
  simp [ld, Registers.cond_urc, Registers.get_urc]

theorem ldr_cond (instr : Nat) (vm : VM) :
    (ldr instr vm).registers.cond =
      flag_of ((ldr instr vm).registers.get ((instr >>> 9) &&& 0x7)) := by
  simp [ldr, Registers.cond_urc, Registers.get_urc]

theorem lea_cond (instr : Nat) (vm : VM) :
    (lea instr vm).registers.cond =
      flag_of ((lea instr vm).registers.get ((instr >>> 9) &&& 0x7)) := by
  simp [lea, Registers.cond_urc, Registers.get_urc]

theorem ldi_cond {instr : Nat} {vm vm' : VM} (h : ldi instr vm = some vm') :
    vm'.registers.cond = flag_of (vm'.registers.get ((instr >>> 9) &&& 0x7)) := by
  unfold ldi at h
  dsimp only at h
  split at h
  · exact absurd h (by simp)
  · simp only [Option.some.injEq] at h
    subst h
    simp [Registers.cond_urc, Registers.get_urc]

theorem br_cond (instr : Nat) (vm : VM) :
    (br instr vm).registers.cond = vm.registers.cond := by
  unfold br
  dsimp only
  split <;> rfl

theorem jmp_cond (instr : Nat) (vm : VM) :
    (jmp instr vm).registers.cond = vm.registers.cond := rfl

theorem jsr_cond (instr : Nat) (vm : VM) :
    (jsr instr vm).registers.cond = vm.registers.cond := by
  unfold jsr
  dsimp only
  split <;> rfl

theorem trap_ret_regs {instr : Nat} {vm vm2 : VM} {input : List Nat}
    {output : List OutEvent} {inp2 : List Nat}
    (h : trap instr vm input = .ret vm2 output inp2) :
    vm2.registers.pc = vm.registers.pc ∧ vm2.registers.cond = vm.registers.cond := by
  unfold trap at h
  dsimp only at h
  split at h
  · split at h
    · exact absurd h (by simp)
    · cases h
      exact ⟨rfl, rfl⟩
  · split at h
    · cases h
      exact ⟨rfl, rfl⟩
    · split at h
      · split at h
        · cases h
          exact ⟨rfl, rfl⟩
        · exact absurd h (by simp)
      · split at h
        · split at h
          · exact absurd h (by simp)
          · cases h
            exact ⟨Registers.pc_update vm.registers 0 _,
                   Registers.cond_update vm.registers 0 _⟩
        · split at h
          · split at h
            · cases h
              exact ⟨rfl, rfl⟩
            · exact absurd h (by simp)
          · split at h
            · exact absurd h (by simp)
            · exact absurd h (by simp)

/-! ### Arithmetic helper lemmas -/

theorem or_mask_mod (x y : Nat) (hx : x < 65536) :
    x ||| (y % 65536) = (x ||| y) % 65536 := by
  have h16 : (65536 : Nat) = 2 ^ 16 := by norm_num
  rw [h16]
  apply Nat.eq_of_testBit_eq
  intro i
  simp only [Nat.testBit_or, Nat.testBit_mod_two_pow]
  by_cases hi : i < 16
  · simp [hi]
  · have hxi : x.testBit i = false := by
      apply Nat.testBit_lt_two_pow
      calc x < 2 ^ 16 := by omega
        _ ≤ 2 ^ i := Nat.pow_le_pow_right (by norm_num) (by omega)
    simp [hi, hxi]

theorem and_mod_8 (n : Nat) : n &&& 7 = n % 8 := by
  have h : (7 : Nat) = 2 ^ 3 - 1 := by norm_num
  rw [h, Nat.and_pow_two_sub_one_eq_mod]

theorem and_mod_512 (n : Nat) : n &&& 0x1FF = n % 512 := by
  have h : (0x1FF : Nat) = 2 ^ 9 - 1 := by norm_num
  rw [h, Nat.and_pow_two_sub_one_eq_mod]

theorem shiftRight_nine (n : Nat) : n >>> 9 = n / 512 := by
  rw [Nat.shiftRight_eq_div_pow]

theorem shiftRight_twelve (n : Nat) : n >>> 12 = n / 4096 := by
  rw [Nat.shiftRight_eq_div_pow]

/-! ### Scan lemmas for the PUTS / PUTSP loops -/

theorem puts_scan_iff (mem : Nat → Nat) :
    ∀ fuel i : Nat, i ≤ 65535 → 65536 - i ≤ fuel →
      ((puts_loop mem fuel i).2 = true ↔ ∃ a, i ≤ a ∧ a ≤ 65535 ∧ mem a = 0) := by
  intro fuel
  induction fuel with
  | zero => intro i hi hf; omega
  | succ fuel ih =>
    intro i hi hf
    by_cases h0 : mem i = 0
    · have hl : puts_loop mem (fuel + 1) i = ([], true) := by
        simp [puts_loop, h0]
      rw [hl]
      simp only [true_iff]
      exact ⟨i, le_refl i, hi, h0⟩
    · by_cases hFF : i = 65535
      · subst hFF
        have hl : (puts_loop mem (fuel + 1) 65535).2 = false := by
          simp [puts_loop, h0]
        rw [hl]
        constructor
        · intro h; cases h
        · rintro ⟨a, ha1, ha2, hz⟩
          have : a = 65535 := by omega
          subst this
          exact absurd hz h0
      · have hl : (puts_loop mem (fuel + 1) i).2 = (puts_loop mem fuel (i + 1)).2 := by
          simp [puts_loop, h0, hFF]
        rw [hl, ih (i + 1) (by omega) (by omega)]
        constructor
        · rintro ⟨a, ha1, ha2, hz⟩
          exact ⟨a, by omega, ha2, hz⟩
        · rintro ⟨a, ha1, ha2, hz⟩
          have hne : a ≠ i := by rintro rfl; exact h0 hz
          exact ⟨a, by omega, ha2, hz⟩

theorem putsp_snd_eq (mem : Nat → Nat) :
    ∀ fuel i : Nat, (putsp_loop mem fuel i).2 = (puts_loop mem fuel i).2 := by
  intro fuel
  induction fuel with
  | zero => intro i; rfl
  | succ fuel ih =>
    intro i
    by_cases h0 : mem i = 0
    · simp [puts_loop, putsp_loop, h0]
    · by_cases hFF : i = 65535
      · subst hFF
        simp [puts_loop, putsp_loop, h0]
      · simp [puts_loop, putsp_loop, h0, hFF, ih]

/-! ### Claim theorems -/

/-- Claim C1: for every VM state and every instruction word whose top nibble
is `0001` (ADD), `execute_instruction` writes to register DR (bits 11:9) the
value `(Reg[SR1] + operand) mod 2^16` — the operand being `Reg[SR2]`
(bits 2:0) when bit 5 is 0 and `sign_extend(imm5, 5)` when bit 5 is 1 — and
then sets COND from the new DR value; in particular, from all-zero registers
with PC `0x3000`, executing `0x123F` leaves R1 = `0xFFFF` and COND = N. -/
theorem add_writes_dr_and_cond :
    (∀ (vm : VM) (input : List Nat) (instr : Nat), instr >>> 12 = 1 →
      ∃ vm', execute_instruction instr vm input = .ok vm' [] input ∧
        vm'.registers.get ((instr >>> 9) &&& 0x7) =
          (vm.registers.get ((instr >>> 6) &&& 0x7) +
            (if (instr >>> 5) &&& 0x1 = 1 then sxt (instr &&& 0x1F) 5
             else vm.registers.get (instr &&& 0x7))) % 65536 ∧
        vm'.registers.cond = flag_of (vm'.registers.get ((instr >>> 9) &&& 0x7))) ∧
    (∃ vm', execute_instruction 0x123F vm0 [] = .ok vm' [] [] ∧
      vm'.registers.r1 = 0xFFFF ∧ vm'.registers.cond = FL_NEG) := by
  constructor
  · intro vm input instr h
    refine ⟨add instr vm, exec_add vm input h, ?_, add_cond instr vm⟩
    by_cases hf : (instr >>> 5) &&& 0x1 = 1
    · rw [if_pos hf]
      unfold add
      dsimp only
      rw [if_pos hf]
      dsimp only
      rw [Registers.get_urc, Registers.get_update_self _ _ _ (and_seven_lt_eight _),
        Nat.add_comm]
    · rw [if_neg hf]
      unfold add
      dsimp only
      rw [if_neg hf]
      dsimp only
      rw [Registers.get_urc, Registers.get_update_self _ _ _ (and_seven_lt_eight _)]
  · exact ⟨_, rfl, by decide, by decide⟩

/-- Witness for C1 at the concrete ADD-register instruction `0x1042`. -/
theorem add_writes_dr_and_cond_witness :
    ((0x1042 : Nat) >>> 12 = 1) ∧
    (∃ vm', execute_instruction 0x1042 vm0 [] = .ok vm' [] [] ∧
      vm'.registers.get (((0x1042 : Nat) >>> 9) &&& 0x7) =
        (vm0.registers.get (((0x1042 : Nat) >>> 6) &&& 0x7) +
          (if ((0x1042 : Nat) >>> 5) &&& 0x1 = 1 then sxt (0x1042 &&& 0x1F) 5
           else vm0.registers.get (0x1042 &&& 0x7))) % 65536 ∧
      vm'.registers.cond = flag_of (vm'.registers.get (((0x1042 : Nat) >>> 9) &&& 0x7))) :=
  ⟨by decide, add_writes_dr_and_cond.1 vm0 [] 0x1042 (by decide)⟩

/-- Counterexample to C2 as stated: at `x = 0x8000`, `w = 16` (bit 15 of `x`
set, `x < 2^16`), the source's `x |= 0xFFFF << bit_count` is a `u16` shift by
the full bit width — an arithmetic overflow, so `sign_extend` aborts instead
of returning `x | (0xFFFF << 16)` truncated to 16 bits (which would be
`0x8000`). -/
theorem sign_extend_width16_ce :
    (0x8000 : Nat) < 2 ^ 16 ∧ ((0x8000 : Nat) >>> 15) &&& 1 = 1 ∧
    sign_extend 0x8000 16 = none ∧
    sign_extend 0x8000 16 ≠ some (((0x8000 : Nat) ||| (0xFFFF <<< 16)) % 65536) :=
  ⟨by norm_num, by decide, rfl, by decide⟩

/-- Claim C2 amended: for `1 ≤ w ≤ 15` (rather than `1 ≤ w ≤ 16`) and
`x < 2^w`, `sign_extend(x, w)` returns `x` when bit `w−1` of `x` is 0, and
`(x | (0xFFFF << w))` truncated to 16 bits when bit `w−1` is 1; at `w = 16`
the shift `0xFFFF << w` overflows `u16` and the function aborts. -/
theorem sign_extend_spec (x w : Nat) (h1 : 1 ≤ w) (h15 : w ≤ 15) (hx : x < 2 ^ w) :
    sign_extend x w =
      some (if (x >>> (w - 1)) &&& 1 = 0 then x
            else (x ||| (0xFFFF <<< w)) % 65536) := by
  have hpow : 2 ^ w ≤ 2 ^ 15 := Nat.pow_le_pow_right (by norm_num) h15
  have hx16 : x < 65536 := lt_of_lt_of_le (lt_of_lt_of_le hx hpow) (by norm_num)
  unfold sign_extend
  rw [if_neg (by omega)]
  by_cases hb : (x >>> (w - 1)) &&& 1 = 0
  · rw [if_neg (by simp [hb]), if_pos hb]
  · rw [if_pos hb, if_neg (by omega), if_neg hb, or_mask_mod x _ hx16]

/-- Witness for the amended C2 at `x = 0x1F`, `w = 5` (spec §4.1's example:
`sign_extend(0x1F, 5) = 0xFFFF`). -/
theorem sign_extend_spec_witness :
    (1 ≤ 5 ∧ 5 ≤ 15 ∧ (0x1F : Nat) < 2 ^ 5) ∧
    sign_extend 0x1F 5 =
      some (if ((0x1F : Nat) >>> (5 - 1)) &&& 1 = 0 then 0x1F
            else ((0x1F : Nat) ||| (0xFFFF <<< 5)) % 65536) :=
  ⟨⟨by norm_num, by norm_num, by norm_num⟩,
   sign_extend_spec 0x1F 5 (by norm_num) (by norm_num) (by norm_num)⟩

/-- Counterexample to C5 as stated: from PC = `0x3000`, R7 = `0x1234`,
executing `0x41C0` (JSRR with BaseR = 7) leaves PC = `0x3000` — the old PC,
not the old R7 — because `jsr` overwrites R7 with PC before reading
`get(BaseR)`. -/
theorem jsrr_r7_ce :
    vmJ.registers.r7 = 0x1234 ∧ vmJ.registers.pc = 0x3000 ∧
    (∃ vm', execute_instruction 0x41C0 vmJ [] = .ok vm' [] [] ∧
      vm'.registers.r7 = 0x3000 ∧ vm'.registers.pc = 0x3000 ∧
      vm'.registers.pc ≠ vmJ.registers.r7) := by
  refine ⟨rfl, rfl, _, rfl, ?_, ?_, ?_⟩ <;> decide

/-- Claim C5 amended: `jsr` writes R7 with the PC value held before the
instruction, prior to any modification of PC; consequently, after JSRR with
BaseR = 7, PC equals the **old PC** (the value R7 was just overwritten with),
not the old R7. -/
theorem jsr_saves_pc_before_jump (vm : VM) (input : List Nat) (instr : Nat)
    (h : instr >>> 12 = 4) :
    ∃ vm', execute_instruction instr vm input = .ok vm' [] input ∧
      vm'.registers.r7 = vm.registers.pc ∧
      ((instr >>> 11) &&& 1 = 0 → (instr >>> 6) &&& 0x7 = 7 →
        vm'.registers.pc = vm.registers.pc) := by
  refine ⟨jsr instr vm, exec_jsr vm input h, ?_, ?_⟩
  · unfold jsr
    dsimp only
    split <;> rfl
  · intro hflag hbase
    unfold jsr
    dsimp only
    rw [if_neg (by simp [hflag]), hbase]
    simp [Registers.get]

/-- Witness for the amended C5 at the long-form JSR `0x4810` from `vm0`
(spec §8 scenario S5 without the driver's PC increment). -/
theorem jsr_saves_pc_before_jump_witness :
    ((0x4810 : Nat) >>> 12 = 4) ∧
    (∃ vm', execute_instruction 0x4810 vm0 [] = .ok vm' [] [] ∧
      vm'.registers.r7 = vm0.registers.pc ∧
      (((0x4810 : Nat) >>> 11) &&& 1 = 0 → ((0x4810 : Nat) >>> 6) &&& 0x7 = 7 →
        vm'.registers.pc = vm0.registers.pc)) :=
  ⟨by decide, jsr_saves_pc_before_jump vm0 [] 0x4810 (by decide)⟩

/-- Claim C6 (code bug): `ldi` computes its first address with a plain `u16`
addition `vm.registers.pc + pc_offset` — unlike every other handler, which
widens to `u32` and truncates as spec §4.5 directs — so at PC = `0xFFFF`
with PCoffset9 = 1 the sum overflows 16 bits and the handler aborts instead
of wrapping to address 0. -/
theorem ldi_unchecked_add_aborts :
    vmFF.registers.pc = 0xFFFF ∧
    sxt (0xA001 &&& 0x1ff) 9 = 1 ∧
    ldi 0xA001 vmFF = none ∧
    execute_instruction 0xA001 vmFF [] = .panic [] :=
  ⟨rfl, by decide, rfl, rfl⟩

/-- Claim C3: after executing any instruction that writes a general register
(ADD, AND, NOT, LD, LDI, LDR, LEA), COND reflects the sign of the value just
written to the destination register: Z if it is 0, N if its bit 15 is 1,
P otherwise. -/
theorem writeback_sets_cond (vm vm' : VM) (input inp' : List Nat)
    (out : List OutEvent) (instr : Nat)
    (hop : instr >>> 12 = 1 ∨ instr >>> 12 = 5 ∨ instr >>> 12 = 9 ∨ instr >>> 12 = 2 ∨
           instr >>> 12 = 10 ∨ instr >>> 12 = 6 ∨ instr >>> 12 = 14)
    (hex : execute_instruction instr vm input = .ok vm' out inp') :
    vm'.registers.cond =
      (if vm'.registers.get ((instr >>> 9) &&& 0x7) = 0 then FL_ZRO
       else if ((vm'.registers.get ((instr >>> 9) &&& 0x7)) >>> 15) &&& 1 = 1 then FL_NEG
       else FL_POS) := by
  rcases hop with h | h | h | h | h | h | h
  · rw [exec_add vm input h] at hex
    cases hex
    exact add_cond instr vm
  · rw [exec_and vm input h] at hex
    cases hex
    exact and_cond instr vm
  · rw [exec_not vm input h] at hex
    cases hex
    exact not_cond instr vm
  · rw [exec_ld vm input h] at hex
    cases hex
    exact ld_cond instr vm
  · rw [exec_ldi vm input h] at hex
    rcases hldi : ldi instr vm with _ | v
    · rw [hldi] at hex
      have hex' : ExecResult.panic [] = ExecResult.ok vm' out inp' := hex
      cases hex'
    · rw [hldi] at hex
      have hex' : ExecResult.ok v [] input = ExecResult.ok vm' out inp' := hex
      cases hex'
      exact ldi_cond hldi
  · rw [exec_ldr vm input h] at hex
    cases hex
    exact ldr_cond instr vm
  · rw [exec_lea vm input h] at hex
    cases hex
    exact lea_cond instr vm

/-- Witness for C3 at the concrete AND instruction `0x5042` from `vm0`. -/
theorem writeback_sets_cond_witness :
    (((0x5042 : Nat) >>> 12 = 1 ∨ (0x5042 : Nat) >>> 12 = 5 ∨ (0x5042 : Nat) >>> 12 = 9 ∨
      (0x5042 : Nat) >>> 12 = 2 ∨ (0x5042 : Nat) >>> 12 = 10 ∨ (0x5042 : Nat) >>> 12 = 6 ∨
      (0x5042 : Nat) >>> 12 = 14) ∧
     execute_instruction 0x5042 vm0 [] = .ok (and 0x5042 vm0) [] []) ∧
    (and 0x5042 vm0).registers.cond =
      (if (and 0x5042 vm0).registers.get (((0x5042 : Nat) >>> 9) &&& 0x7) = 0 then FL_ZRO
       else if (((and 0x5042 vm0).registers.get (((0x5042 : Nat) >>> 9) &&& 0x7)) >>> 15) &&& 1 = 1
         then FL_NEG
       else FL_POS) :=
  ⟨⟨by decide, rfl⟩,
   writeback_sets_cond vm0 (and 0x5042 vm0) [] [] [] 0x5042 (by decide) rfl⟩

/-- Claim C4: executing any ST, STI, STR, BR, JMP, JSR or TRAP instruction
leaves the COND register unchanged (for TRAP, whenever the handler returns
to the dispatcher). -/
theorem stores_jumps_preserve_cond (vm vm' : VM) (input inp' : List Nat)
    (out : List OutEvent) (instr : Nat)
    (hop : instr >>> 12 = 3 ∨ instr >>> 12 = 11 ∨ instr >>> 12 = 7 ∨ instr >>> 12 = 0 ∨
           instr >>> 12 = 12 ∨ instr >>> 12 = 4 ∨ instr >>> 12 = 15)
    (hex : execute_instruction instr vm input = .ok vm' out inp') :
    vm'.registers.cond = vm.registers.cond := by
  rcases hop with h | h | h | h | h | h | h
  · rw [exec_st vm input h] at hex
    cases hex
    rw [st_regs]
  · rw [exec_sti vm input h] at hex
    cases hex
    rw [sti_regs]
  · rw [exec_str vm input h] at hex
    cases hex
    rw [str_regs]
  · rw [exec_br vm input h] at hex
    cases hex
    exact br_cond instr vm
  · rw [exec_jmp vm input h] at hex
    cases hex
    exact jmp_cond instr vm
  · rw [exec_jsr vm input h] at hex
    cases hex
    exact jsr_cond instr vm
  · rw [exec_trap vm input h] at hex
    rcases htr : trap instr vm input with ⟨vm2, o2, i2⟩ | ⟨c, o⟩ | o <;>
      rw [htr] at hex <;> simp only [liftTrap] at hex
    · cases hex
      exact (trap_ret_regs htr).2
    · cases hex
    · cases hex

/-- Witness for C4 at the concrete ST instruction `0x3005` from `vm0`. -/
theorem stores_jumps_preserve_cond_witness :
    (((0x3005 : Nat) >>> 12 = 3 ∨ (0x3005 : Nat) >>> 12 = 11 ∨ (0x3005 : Nat) >>> 12 = 7 ∨
      (0x3005 : Nat) >>> 12 = 0 ∨ (0x3005 : Nat) >>> 12 = 12 ∨ (0x3005 : Nat) >>> 12 = 4 ∨
      (0x3005 : Nat) >>> 12 = 15) ∧
     execute_instruction 0x3005 vm0 [] = .ok (st 0x3005 vm0) [] []) ∧
    (st 0x3005 vm0).registers.cond = vm0.registers.cond :=
  ⟨⟨by decide, rfl⟩,
   stores_jumps_preserve_cond vm0 (st 0x3005 vm0) [] [] [] 0x3005 (by decide) rfl⟩

/-- Claim C7: for every state, registers `r`, `r'` and 9-bit offset `x`,
executing `ST r, x` and then `LD r', x` back to back — so PC is equal at both
executions and nothing intervenes — leaves register `r'` holding the value
register `r` held. -/
theorem st_ld_roundtrip (vm : VM) (input : List Nat) (r r' x : Nat)
    (hr : r < 8) (hr' : r' < 8) (hx : x < 512) :
    ∃ vm1 vm2,
      execute_instruction (0x3000 + r * 512 + x) vm input = .ok vm1 [] input ∧
      execute_instruction (0x2000 + r' * 512 + x) vm1 input = .ok vm2 [] input ∧
      vm1.registers.pc = vm.registers.pc ∧
      vm2.registers.get r' = vm.registers.get r := by
  have hst12 : (0x3000 + r * 512 + x) >>> 12 = 3 := by rw [shiftRight_twelve]; omega
  have hld12 : (0x2000 + r' * 512 + x) >>> 12 = 2 := by rw [shiftRight_twelve]; omega
  have hstsr : ((0x3000 + r * 512 + x) >>> 9) &&& 0x7 = r := by
    rw [shiftRight_nine, and_mod_8]; omega
  have hlddr : ((0x2000 + r' * 512 + x) >>> 9) &&& 0x7 = r' := by
    rw [shiftRight_nine, and_mod_8]; omega
  have hstoff : (0x3000 + r * 512 + x) &&& 0x1ff = x := by rw [and_mod_512]; omega
  have hldoff : (0x2000 + r' * 512 + x) &&& 0x1ff = x := by rw [and_mod_512]; omega
  refine ⟨st (0x3000 + r * 512 + x) vm, ld (0x2000 + r' * 512 + x) (st (0x3000 + r * 512 + x) vm),
    exec_st vm input hst12, exec_ld (st (0x3000 + r * 512 + x) vm) input hld12, ?_, ?_⟩
  · rw [st_regs]
  · unfold ld
    dsimp only
    rw [hlddr, hldoff]
    rw [Registers.get_urc, Registers.get_update_self _ _ _ hr']
    rw [st_regs]
    unfold st
    dsimp only
    rw [hstsr, hstoff]
    unfold VM.write_memory VM.read_memory
    dsimp only
    rw [Nat.add_comm (sxt x 9) vm.registers.pc]
    simp

/-- Witness for C7 at `r = 0`, `r' = 1`, `x = 5` from `vm0`. -/
theorem st_ld_roundtrip_witness :
    ((0 : Nat) < 8 ∧ (1 : Nat) < 8 ∧ (5 : Nat) < 512) ∧
    (∃ vm1 vm2,
      execute_instruction (0x3000 + 0 * 512 + 5) vm0 [] = .ok vm1 [] [] ∧
      execute_instruction (0x2000 + 1 * 512 + 5) vm1 [] = .ok vm2 [] [] ∧
      vm1.registers.pc = vm0.registers.pc ∧
      vm2.registers.get 1 = vm0.registers.get 0) :=
  ⟨⟨by decide, by decide, by decide⟩,
   st_ld_roundtrip vm0 [] 0 1 5 (by decide) (by decide) (by decide)⟩

/-- The PUTS trap returns to the dispatcher exactly when its scan flag is
`true` (helper for the termination claim). -/
theorem trap_puts_ret_iff (vm : VM) (input : List Nat) :
    (∃ vm2 output inp2, trap 0xF022 vm input = .ret vm2 output inp2) ↔
      (puts_loop vm.memory 65536 vm.registers.r0).2 = true := by
  unfold trap
  dsimp only
  rw [if_neg (by decide), if_neg (by decide), if_pos (by decide)]
  by_cases hp : (puts_loop vm.memory 65536 vm.registers.r0).2 = true
  · rw [if_pos hp]
    simp [hp]
  · rw [if_neg hp]
    simp [hp]

/-- The PUTSP trap returns to the dispatcher exactly when its scan flag is
`true` (helper for the termination claim). -/
theorem trap_putsp_ret_iff (vm : VM) (input : List Nat) :
    (∃ vm2 output inp2, trap 0xF024 vm input = .ret vm2 output inp2) ↔
      (putsp_loop vm.memory 65536 vm.registers.r0).2 = true := by
  unfold trap
  dsimp only
  rw [if_neg (by decide), if_neg (by decide), if_neg (by decide), if_neg (by decide),
    if_pos (by decide)]
  by_cases hp : (putsp_loop vm.memory 65536 vm.registers.r0).2 = true
  · rw [if_pos hp]
    simp [hp]
  · rw [if_neg hp]
    simp [hp]

/-- Counterexample to C8 as stated: in `vmCE` the zero word at address 0 is
reachable from R0 = 1 by incrementing with 16-bit wrap-around (it sits at
`(R0 + 0xFFFF) mod 2^16`), yet PUTS does not terminate normally: its
`index += 1` is a plain `u16` increment, so the scan aborts after address
`0xFFFF` instead of wrapping to 0. -/
theorem puts_wrap_ce :
    vmCE.registers.r0 = 1 ∧
    vmCE.memory ((vmCE.registers.r0 + 0xFFFF) % 65536) = 0 ∧
    (∃ output, trap 0xF022 vmCE [] = .panic output) := by
  have hno : (puts_loop vmCE.memory 65536 vmCE.registers.r0).2 = false := by
    rcases hbool : (puts_loop vmCE.memory 65536 vmCE.registers.r0).2 with _ | _
    · rfl
    · exfalso
      obtain ⟨a, ha1, ha2, hz⟩ :=
        (puts_scan_iff vmCE.memory 65536 vmCE.registers.r0 (by decide) (by omega)).mp hbool
      have ha1' : 1 ≤ a := ha1
      have hz' : memCE a = 0 := hz
      unfold memCE at hz'
      rw [if_neg (by omega)] at hz'
      exact absurd hz' (by decide)
  refine ⟨rfl, by decide, ?_⟩
  unfold trap
  dsimp only
  rw [if_neg (by decide), if_neg (by decide), if_pos (by decide), if_neg (by simp [hno])]
  exact ⟨_, rfl⟩

/-- Claim C8 amended: PUTS (vector `0x22`) and PUTSP (vector `0x24`) return
to the dispatcher iff memory holds a zero word at some address `a` with
`R0 ≤ a ≤ 0xFFFF` — ascending addresses **without** wrap-around: when no such
word exists the address increment overflows past `0xFFFF` and the routine
aborts instead of wrapping. -/
theorem puts_putsp_terminate_iff (vm : VM) (input : List Nat)
    (hr0 : vm.registers.r0 ≤ 65535) :
    ((∃ vm2 output inp2, trap 0xF022 vm input = .ret vm2 output inp2) ↔
      ∃ a, vm.registers.r0 ≤ a ∧ a ≤ 65535 ∧ vm.memory a = 0) ∧
    ((∃ vm2 output inp2, trap 0xF024 vm input = .ret vm2 output inp2) ↔
      ∃ a, vm.registers.r0 ≤ a ∧ a ≤ 65535 ∧ vm.memory a = 0) := by
  constructor
  · rw [trap_puts_ret_iff vm input]
    exact puts_scan_iff vm.memory 65536 vm.registers.r0 hr0 (by omega)
  · rw [trap_putsp_ret_iff vm input, putsp_snd_eq]
    exact puts_scan_iff vm.memory 65536 vm.registers.r0 hr0 (by omega)

/-- Witness for the amended C8 at `vm0` (R0 = 0, all-zero memory). -/
theorem puts_putsp_terminate_iff_witness :
    vm0.registers.r0 ≤ 65535 ∧
    (((∃ vm2 output inp2, trap 0xF022 vm0 [] = .ret vm2 output inp2) ↔
       ∃ a, vm0.registers.r0 ≤ a ∧ a ≤ 65535 ∧ vm0.memory a = 0) ∧
     ((∃ vm2 output inp2, trap 0xF024 vm0 [] = .ret vm2 output inp2) ↔
       ∃ a, vm0.registers.r0 ≤ a ∧ a ≤ 65535 ∧ vm0.memory a = 0)) :=
  ⟨by decide, puts_putsp_terminate_iff vm0 [] (by decide)⟩

/-- Claim C9: TRAP with vector `0x25` prints `HALT detected` (with
`println!`'s newline), flushes the output and terminates the process with
exit status 1 (non-zero); TRAP with any vector outside `0x20`–`0x25` also
terminates the process with exit status 1. -/
theorem trap_halt_and_illegal_vector :
    (∀ (vm : VM) (input : List Nat) (instr : Nat),
      instr >>> 12 = 15 → instr &&& 0xFF = 0x25 →
      execute_instruction instr vm input =
        .exit 1 [.out "HALT detected\n", .flush]) ∧
    (∀ (vm : VM) (input : List Nat) (instr : Nat),
      instr >>> 12 = 15 → (instr &&& 0xFF < 0x20 ∨ 0x25 < instr &&& 0xFF) →
      execute_instruction instr vm input = .exit 1 []) := by
  constructor
  · intro vm input instr h12 hv
    rw [exec_trap vm input h12]
    unfold trap
    dsimp only
    rw [if_neg (by omega), if_neg (by omega), if_neg (by omega), if_neg (by omega),
      if_neg (by omega), if_pos hv]
    rfl
  · intro vm input instr h12 hv
    rw [exec_trap vm input h12]
    unfold trap
    dsimp only
    rw [if_neg (by omega), if_neg (by omega), if_neg (by omega), if_neg (by omega),
      if_neg (by omega), if_neg (by omega)]
    rfl

/-- Witness for C9 at the HALT trap `0xF025` and the illegal vector `0x30`
(instruction `0xF030`). -/
theorem trap_halt_and_illegal_vector_witness :
    (((0xF025 : Nat) >>> 12 = 15 ∧ (0xF025 : Nat) &&& 0xFF = 0x25) ∧
     execute_instruction 0xF025 vm0 [] = .exit 1 [.out "HALT detected\n", .flush]) ∧
    (((0xF030 : Nat) >>> 12 = 15 ∧
      ((0xF030 : Nat) &&& 0xFF < 0x20 ∨ 0x25 < (0xF030 : Nat) &&& 0xFF)) ∧
     execute_instruction 0xF030 vm0 [] = .exit 1 []) :=
  ⟨⟨⟨by decide, by decide⟩,
    trap_halt_and_illegal_vector.1 vm0 [] 0xF025 (by decide) (by decide)⟩,
   ⟨⟨by decide, by decide⟩,
    trap_halt_and_illegal_vector.2 vm0 [] 0xF030 (by decide) (by decide)⟩⟩

/-- Claim C10: every instruction whose opcode nibble is not BR (0), JSR (4)
or JMP (12) — ADD, AND, NOT, LD, LDI, LDR, LEA, ST, STI, STR, RTI, RES, and
every TRAP whose handler returns — leaves the PC register unchanged. -/
theorem non_control_preserves_pc (vm vm' : VM) (input inp' : List Nat)
    (out : List OutEvent) (instr : Nat)
    (h0 : instr >>> 12 ≠ 0) (h4 : instr >>> 12 ≠ 4) (h12 : instr >>> 12 ≠ 12)
    (hex : execute_instruction instr vm input = .ok vm' out inp') :
    vm'.registers.pc = vm.registers.pc := by
  rcases Nat.lt_or_ge (instr >>> 12) 16 with h16 | h16
  · have hcases : instr >>> 12 = 1 ∨ instr >>> 12 = 2 ∨ instr >>> 12 = 3 ∨
        instr >>> 12 = 5 ∨ instr >>> 12 = 6 ∨ instr >>> 12 = 7 ∨ instr >>> 12 = 8 ∨
        instr >>> 12 = 9 ∨ instr >>> 12 = 10 ∨ instr >>> 12 = 11 ∨ instr >>> 12 = 13 ∨
        instr >>> 12 = 14 ∨ instr >>> 12 = 15 := by omega
    rcases hcases with h | h | h | h | h | h | h | h | h | h | h | h | h
    · rw [exec_add vm input h] at hex
      cases hex
      exact add_pc instr vm
    · rw [exec_ld vm input h] at hex
      cases hex
      exact ld_pc instr vm
    · rw [exec_st vm input h] at hex
      cases hex
      rw [st_regs]
    · rw [exec_and vm input h] at hex
      cases hex
      exact and_pc instr vm
    · rw [exec_ldr vm input h] at hex
      cases hex
      exact ldr_pc instr vm
    · rw [exec_str vm input h] at hex
      cases hex
      rw [str_regs]
    · rw [exec_rti vm input h] at hex
      cases hex
      rfl
    · rw [exec_not vm input h] at hex
      cases hex
      exact not_pc instr vm
    · rw [exec_ldi vm input h] at hex
      rcases hldi : ldi instr vm with _ | v
      · rw [hldi] at hex
        have hex' : ExecResult.panic [] = ExecResult.ok vm' out inp' := hex
        cases hex'
      · rw [hldi] at hex
        have hex' : ExecResult.ok v [] input = ExecResult.ok vm' out inp' := hex
        cases hex'
        exact ldi_pc hldi
    · rw [exec_sti vm input h] at hex
      cases hex
      rw [sti_regs]
    · rw [exec_res vm input h] at hex
      cases hex
      rfl
    · rw [exec_lea vm input h] at hex
      cases hex
      exact lea_pc instr vm
    · rw [exec_trap vm input h] at hex
      rcases htr : trap instr vm input with ⟨vm2, o2, i2⟩ | ⟨c, o⟩ | o <;>
        rw [htr] at hex <;> simp only [liftTrap] at hex
      · cases hex
        exact (trap_ret_regs htr).1
      · cases hex
      · cases hex
  · rw [exec_high vm input h16] at hex
    cases hex
    rfl

/-- Witness for C10 at the concrete NOT instruction `0x903F` from `vm0`. -/
theorem non_control_preserves_pc_witness :
    (((0x903F : Nat) >>> 12 ≠ 0 ∧ (0x903F : Nat) >>> 12 ≠ 4 ∧ (0x903F : Nat) >>> 12 ≠ 12) ∧
     execute_instruction 0x903F vm0 [] = .ok (not 0x903F vm0) [] []) ∧
    (not 0x903F vm0).registers.pc = vm0.registers.pc :=
  ⟨⟨⟨by decide, by decide, by decide⟩, rfl⟩,
   non_control_preserves_pc vm0 (not 0x903F vm0) [] [] [] 0x903F
     (by decide) (by decide) (by decide) rfl⟩

end RustASM16
